import Mathlib

/-!
Shallow embedding of libmolgrid's `atom_typer.h` (namespace `libmolgrid`):
atom typers (rule-based gnina typer, element typer, vector typer), type
mappers (file-driven, subset) and the mapper∘typer composition adapter.

Machine integers are modelled as `Nat`/`Int` with the C++ implicit
conversions made explicit; `float` is modelled as `ℚ`.  Member functions
whose bodies live in `atom_typer.cpp` (not part of the given sources) are
modelled from the spec and say so in their doc comments.
-/

namespace libmolgrid

/-- 2^32, the modulus of C++ `unsigned int`. -/
def UINT32_MOD : Nat := 4294967296

/-- C++ implicit conversion `int → unsigned`: reduce modulo 2^32. -/
def intToUnsigned (i : Int) : Nat := (i % (UINT32_MOD : Int)).toNat

/-- C++ conversion `unsigned → int` (wraps modulo 2^32, as on mainstream
platforms). -/
def unsignedToInt (n : Nat) : Int :=
  if n % UINT32_MOD < 2147483648 then ((n % UINT32_MOD : Nat) : Int)
  else ((n % UINT32_MOD : Nat) : Int) - (UINT32_MOD : Int)

/-- Atom properties consumed from the external molecular-structure
collaborator (spec §6): the typers only read already-perceived atom
properties.  `charge` is the OpenBabel partial charge. -/
structure Atom where
  atomic_number : Nat
  aromatic : Bool
  attached_to_donor : Bool
  is_donor : Bool
  is_acceptor : Bool
  bonded_to_heteroatom : Bool
  is_metallic : Bool
  charge : ℚ
deriving DecidableEq, Repr

/-- The `GninaIndexTyper::type` enum of `atom_typer.h` (lines 83–113):
28 concrete atom categories `Hydrogen`(0) … `Boron`(27) followed by the
count sentinel `NumTypes`(28). -/
inductive GninaType where
  | Hydrogen
  | PolarHydrogen
  | AliphaticCarbonXSHydrophobe
  | AliphaticCarbonXSNonHydrophobe
  | AromaticCarbonXSHydrophobe
  | AromaticCarbonXSNonHydrophobe
  | Nitrogen
  | NitrogenXSDonor
  | NitrogenXSDonorAcceptor
  | NitrogenXSAcceptor
  | Oxygen
  | OxygenXSDonor
  | OxygenXSDonorAcceptor
  | OxygenXSAcceptor
  | Sulfur
  | SulfurAcceptor
  | Phosphorus
  | Fluorine
  | Chlorine
  | Bromine
  | Iodine
  | Magnesium
  | Manganese
  | Zinc
  | Calcium
  | Iron
  | GenericMetal
  | Boron
  | NumTypes
deriving DecidableEq, Repr, Fintype

/-- Numeric value of each enumerator of the C++ `type` enum (assigned in
declaration order starting from 0). -/
def GninaType.toIdx : GninaType → Nat
  | .Hydrogen => 0
  | .PolarHydrogen => 1
  | .AliphaticCarbonXSHydrophobe => 2
  | .AliphaticCarbonXSNonHydrophobe => 3
  | .AromaticCarbonXSHydrophobe => 4
  | .AromaticCarbonXSNonHydrophobe => 5
  | .Nitrogen => 6
  | .NitrogenXSDonor => 7
  | .NitrogenXSDonorAcceptor => 8
  | .NitrogenXSAcceptor => 9
  | .Oxygen => 10
  | .OxygenXSDonor => 11
  | .OxygenXSDonorAcceptor => 12
  | .OxygenXSAcceptor => 13
  | .Sulfur => 14
  | .SulfurAcceptor => 15
  | .Phosphorus => 16
  | .Fluorine => 17
  | .Chlorine => 18
  | .Bromine => 19
  | .Iodine => 20
  | .Magnesium => 21
  | .Manganese => 22
  | .Zinc => 23
  | .Calcium => 24
  | .Iron => 25
  | .GenericMetal => 26
  | .Boron => 27
  | .NumTypes => 28

/-- The concrete (non-sentinel) enumerators of the `type` enum, in
declaration order. -/
def GninaType.concreteList : List GninaType :=
  [.Hydrogen, .PolarHydrogen,
   .AliphaticCarbonXSHydrophobe, .AliphaticCarbonXSNonHydrophobe,
   .AromaticCarbonXSHydrophobe, .AromaticCarbonXSNonHydrophobe,
   .Nitrogen, .NitrogenXSDonor, .NitrogenXSDonorAcceptor, .NitrogenXSAcceptor,
   .Oxygen, .OxygenXSDonor, .OxygenXSDonorAcceptor, .OxygenXSAcceptor,
   .Sulfur, .SulfurAcceptor, .Phosphorus,
   .Fluorine, .Chlorine, .Bromine, .Iodine,
   .Magnesium, .Manganese, .Zinc, .Calcium, .Iron,
   .GenericMetal, .Boron]

/-- `GninaIndexTyper::info` (atom_typer.h lines 116–132): per-category
record of chemistry constants. -/
structure GninaInfo where
  sm : GninaType
  smina_name : String
  adname : String
  anum : Nat
  ad_radius : ℚ
  ad_depth : ℚ
  ad_solvation : ℚ
  ad_volume : ℚ
  covalent_radius : ℚ
  xs_radius : ℚ
  xs_hydrophobe : Bool
  xs_donor : Bool
  xs_acceptor : Bool
  ad_heteroatom : Bool
deriving DecidableEq, Repr

/-- An `AtomIndexTyper` (atom_typer.h lines 24–38): classifies one atom
into a category index plus a radius.  Modelled as a record of the three
virtual member functions. -/
structure AtomIndexTyper (A : Type) where
  num_types : Nat
  get_type : A → Int × ℚ
  get_type_names : List String

/-- An `AtomIndexTypeMapper` (atom_typer.h lines 59–72): remaps an
original category index (C++ `unsigned`) to a new index (C++ `int`). -/
structure AtomIndexTypeMapper where
  num_types : Nat
  get_type : Nat → Int
  get_type_names : List String

/-- Default `AtomIndexTypeMapper::num_types` body (line 65): `return 0;`. -/
def AtomIndexTypeMapper.default_num_types : Nat := 0

/-- Default `AtomIndexTypeMapper::get_type` body (line 68):
`return origt;` — the `unsigned` argument is returned unchanged as `int`,
with no bounds check of any kind. -/
def AtomIndexTypeMapper.default_get_type (origt : Nat) : Int :=
  unsignedToInt origt

/-- `MappedAtomIndexTyper` (atom_typer.h lines 184–209): wraps a mapper
and a typer behind the `AtomIndexTyper` contract.  `get_type` runs the
wrapped typer, then remaps the resulting category through the mapper
(the `int` result is implicitly converted to the mapper's `unsigned`
parameter); the radius is passed through unchanged. -/
def MappedAtomIndexTyper {A : Type} (mapper : AtomIndexTypeMapper)
    (typer : AtomIndexTyper A) : AtomIndexTyper A where
  num_types := mapper.num_types
  get_type a :=
    let res_rad := typer.get_type a
    let ret := mapper.get_type (intToUnsigned res_rad.1)
    (ret, res_rad.2)
  get_type_names := mapper.get_type_names

/-- Error kind of spec §7: rule-based classifier meets a non-metallic
element with no category. -/
def UnrecognizedElement : String := "UnrecognizedElement"

/-- Error kind of spec §7: file-driven mapper construction references a
name outside the supplied original list. -/
def UnknownTypeName : String := "UnknownTypeName"

/-- Modelled from the spec: the classification decision procedure of
`GninaIndexTyper::get_type`, whose body lives in `atom_typer.cpp` (not part
of the given sources).  Spec §4.1: (1) hydrogen branches on attachment to a
donor heavy atom; (2) element identity picks the category family; (3)
carbon splits on aromaticity and hydrophobicity (no heteroatom within one
bond); (4) N/O/S refine by donor/acceptor perception; unknown elements go
to `GenericMetal` when metallic and otherwise fail with
`UnrecognizedElement`. -/
def GninaIndexTyper.type_of (a : Atom) : Except String GninaType :=
  if a.atomic_number = 1 then
    .ok (if a.attached_to_donor then .PolarHydrogen else .Hydrogen)
  else if a.atomic_number = 6 then
    .ok (if a.aromatic then
          (if a.bonded_to_heteroatom then .AromaticCarbonXSNonHydrophobe
           else .AromaticCarbonXSHydrophobe)
         else
          (if a.bonded_to_heteroatom then .AliphaticCarbonXSNonHydrophobe
           else .AliphaticCarbonXSHydrophobe))
  else if a.atomic_number = 7 then
    .ok (if a.is_donor then
          (if a.is_acceptor then .NitrogenXSDonorAcceptor else .NitrogenXSDonor)
         else
          (if a.is_acceptor then .NitrogenXSAcceptor else .Nitrogen))
  else if a.atomic_number = 8 then
    .ok (if a.is_donor then
          (if a.is_acceptor then .OxygenXSDonorAcceptor else .OxygenXSDonor)
         else
          (if a.is_acceptor then .OxygenXSAcceptor else .Oxygen))
  else if a.atomic_number = 16 then
    .ok (if a.is_acceptor then .SulfurAcceptor else .Sulfur)
  else if a.atomic_number = 15 then .ok .Phosphorus
  else if a.atomic_number = 9 then .ok .Fluorine
  else if a.atomic_number = 17 then .ok .Chlorine
  else if a.atomic_number = 35 then .ok .Bromine
  else if a.atomic_number = 53 then .ok .Iodine
  else if a.atomic_number = 12 then .ok .Magnesium
  else if a.atomic_number = 25 then .ok .Manganese
  else if a.atomic_number = 30 then .ok .Zinc
  else if a.atomic_number = 20 then .ok .Calcium
  else if a.atomic_number = 26 then .ok .Iron
  else if a.atomic_number = 5 then .ok .Boron
  else if a.is_metallic then .ok .GenericMetal
  else .error UnrecognizedElement

/-- Modelled from the spec: `GninaIndexTyper::num_types`, whose body
lives in `atom_typer.cpp` — "Fixed category count = 28": it returns the
enum sentinel `NumTypes`. -/
def GninaIndexTyper.num_types : Nat := GninaType.NumTypes.toIdx

/-- Modelled from the spec: `GninaIndexTyper::get_type` (body in
`atom_typer.cpp`).  The category id indexes the info table `data` to
obtain the radius; the `use_covalent` construction flag (header line 142)
switches between the covalent and cross-docking radius column. -/
def GninaIndexTyper.get_type (use_covalent : Bool) (data : GninaType → GninaInfo)
    (a : Atom) : Except String (Int × ℚ) :=
  (GninaIndexTyper.type_of a).map fun t =>
    (((t.toIdx : Nat) : Int),
     if use_covalent then (data t).covalent_radius else (data t).xs_radius)

/-- `GninaIndexTyper::get_info` (atom_typer.h line 155): `return data[t];`
— a raw array read with no bounds check; an out-of-range `t` is undefined
behaviour, modelled as `none`. -/
def GninaIndexTyper.get_info (data : GninaType → GninaInfo) (t : Int) :
    Option GninaInfo :=
  if 0 ≤ t ∧ t < ((GninaType.NumTypes.toIdx : Nat) : Int) then
    some (data (GninaType.concreteList.getD t.toNat .NumTypes))
  else none

/-- Modelled from the spec: `ElementIndexTyper::num_types` (body in
`atom_typer.cpp`) — "`num_types()` = cutoff value". -/
def ElementIndexTyper.num_types (last_elem : Nat) : Nat := last_elem

/-- The default cutoff of the `ElementIndexTyper` constructor
(atom_typer.h line 168: `maxe = 84`). -/
def ElementIndexTyper.default_max : Nat := 84

/-- Modelled from the spec: `ElementIndexTyper::get_type` (body in
`atom_typer.cpp`) — "category id := atomic number if it is below a
configured cutoff, else category 0"; the radius comes from a fixed
per-element table, with a fallback constant for category 0. -/
def ElementIndexTyper.get_type (last_elem : Nat) (radii : Nat → ℚ)
    (default_radius : ℚ) (a : Atom) : Int × ℚ :=
  if a.atomic_number < last_elem then
    (((a.atomic_number : Nat) : Int), radii a.atomic_number)
  else (0, default_radius)

/-- The `GninaVectorTyper::vtype` enum (atom_typer.h lines 221–248) has
25 feature positions (`NumTypes` = 25): 17 one-hot element buckets, three
continuous descriptors, four boolean flags, and the partial charge. -/
def GninaVectorTyper.num_types : Nat := 25

/-- Modelled from the spec: the element bucket (vtype position 0–16) onto
which `GninaVectorTyper` projects a gnina category — spec §4.2: hydrogen,
carbon, nitrogen, oxygen, sulfur, phosphorus, the four halogens, the five
named metals and boron each have a bucket, "plus a 17th generic-atom
bucket for anything else". -/
def GninaVectorTyper.elementBucket : GninaType → Nat
  | .Hydrogen => 0
  | .PolarHydrogen => 0
  | .AliphaticCarbonXSHydrophobe => 1
  | .AliphaticCarbonXSNonHydrophobe => 1
  | .AromaticCarbonXSHydrophobe => 1
  | .AromaticCarbonXSNonHydrophobe => 1
  | .Nitrogen => 2
  | .NitrogenXSDonor => 2
  | .NitrogenXSDonorAcceptor => 2
  | .NitrogenXSAcceptor => 2
  | .Oxygen => 3
  | .OxygenXSDonor => 3
  | .OxygenXSDonorAcceptor => 3
  | .OxygenXSAcceptor => 3
  | .Sulfur => 4
  | .SulfurAcceptor => 4
  | .Phosphorus => 5
  | .Fluorine => 6
  | .Chlorine => 7
  | .Bromine => 8
  | .Iodine => 9
  | .Magnesium => 10
  | .Manganese => 11
  | .Zinc => 12
  | .Calcium => 13
  | .Iron => 14
  | .Boron => 15
  | .GenericMetal => 16
  | .NumTypes => 16

/-- Boolean flag rendered as a 0.0/1.0 feature entry. -/
def boolToQ (b : Bool) : ℚ := if b then 1 else 0

/-- One-hot block of the 17 element buckets: position `k` holds 1.0, the
other 16 positions 0.0. -/
def onehot17 (k : Nat) : List ℚ :=
  (List.range 17).map fun i => if i = k then 1 else 0

/-- Modelled from the spec: `GninaVectorTyper::get_type` (body in
`atom_typer.cpp`).  Spec §4.2: delegates to the rule-based index typer for
category and radius, writes the one-hot element block (positions 0–16),
the continuous descriptors depth/solvation/volume (17–19), the boolean
flags hydrophobe/donor/acceptor/heteroatom (20–23) and the atom's own
partial charge (24); returns the underlying classifier's radius. -/
def GninaVectorTyper.get_type (use_covalent : Bool)
    (data : GninaType → GninaInfo) (a : Atom) :
    Except String (List ℚ × ℚ) :=
  match GninaIndexTyper.type_of a with
  | .error e => .error e
  | .ok t =>
    let i := data t
    let typ := onehot17 (GninaVectorTyper.elementBucket t) ++
      [i.ad_depth, i.ad_solvation, i.ad_volume,
       boolToQ i.xs_hydrophobe, boolToQ i.xs_donor, boolToQ i.xs_acceptor,
       boolToQ i.ad_heteroatom, a.charge]
    .ok (typ, if use_covalent then i.covalent_radius else i.xs_radius)

/-- Position of the first occurrence of `x` in `xs`, if any. -/
def idxOf? {α : Type} [DecidableEq α] : List α → α → Option Nat
  | [], _ => none
  | y :: ys, x => if y = x then some 0 else (idxOf? ys x).map (· + 1)

/-- Index of the last group of `gs` containing `x`, if any. -/
def lastMem? {α : Type} [DecidableEq α] (x : α) : List (List α) → Option Nat
  | [] => none
  | g :: gs =>
    match lastMem? x gs with
    | some k => some (k + 1)
    | none => if x ∈ g then some 0 else none

/-- `FileAtomMapper` state (atom_typer.h lines 272–300): original names,
the original→new index table, and the new category names. -/
structure FileAtomMapper where
  old_type_names : List String
  old_type_to_new_type : List Int
  new_type_names : List String
deriving DecidableEq, Repr

/-- Display name of a new category, derived from the original names that
the line aggregates (spec §4.3). -/
def lineName (tokens : List String) : String := String.intercalate "_" tokens

/-- Modelled from the spec: one line of `FileAtomMapper::setup` (body in
`atom_typer.cpp`).  Every original-type name listed on the line is
assigned the line's new category index `i`; a name absent from
`old_type_names` is a construction failure `UnknownTypeName`. -/
def applyLine (old : List String) (i : Int) :
    List String → List Int → Except String (List Int)
  | [], m => .ok m
  | t :: ts, m =>
    match idxOf? old t with
    | none => .error UnknownTypeName
    | some j => applyLine old i ts (m.set j i)

/-- Modelled from the spec: the line loop of `FileAtomMapper::setup`
(body in `atom_typer.cpp`): line `i` (0-based over non-empty lines, in
file order) defines new category `i` and contributes one new display
name. -/
def setupAux (old : List String) :
    List (List String) → Nat → List Int → List String →
    Except String (List Int × List String)
  | [], _, m, names => .ok (m, names.reverse)
  | l :: ls, i, m, names =>
    match applyLine old ((i : Nat) : Int) l m with
    | .error e => .error e
    | .ok m2 => setupAux old ls (i + 1) m2 (lineName l :: names)

/-- Modelled from the spec: `FileAtomMapper::setup` (body in
`atom_typer.cpp`).  The mapping source is given as its lines, each
already split into whitespace-separated tokens; blank lines are skipped
before index assignment; every original name never mentioned keeps the
unmapped sentinel −1. -/
def FileAtomMapper.setup (old : List String) (lines : List (List String)) :
    Except String FileAtomMapper :=
  let ne := lines.filter fun l => !l.isEmpty
  match setupAux old ne 0 (List.replicate old.length (-1)) [] with
  | .error e => .error e
  | .ok (m, names) => .ok ⟨old, m, names⟩

/-- `FileAtomMapper::num_types` (atom_typer.h line 292):
`return new_type_names.size();`. -/
def FileAtomMapper.num_types (fm : FileAtomMapper) : Nat :=
  fm.new_type_names.length

/-- `FileAtomMapper::get_type_names` (atom_typer.h line 298). -/
def FileAtomMapper.get_type_names (fm : FileAtomMapper) : List String :=
  fm.new_type_names

/-- Modelled from the spec: `FileAtomMapper::get_type` (body in
`atom_typer.cpp`) — "`get_type(original id) -> new id or unmapped
sentinel`": look the id up in the original→new table. -/
def FileAtomMapper.get_type (fm : FileAtomMapper) (origt : Nat) : Int :=
  (fm.old_type_to_new_type[origt]?).getD (-1)

/-- `SubsetAtomMapper` state (atom_typer.h lines 304–322): the
original→new map, the default type for ids not in the map (−1 unless a
catch-all was appended), and the new type count. -/
structure SubsetAtomMapper where
  old2new : Int → Option Int
  default_type : Int
  num_new_types : Nat

/-- Modelled from the spec: the flat-subset `SubsetAtomMapper`
constructor (body in `atom_typer.cpp`).  Spec §4.3 (a): each listed
original id becomes its own new category (new id = position in the list);
with the catch-all flag one extra category is appended and becomes the
default type, otherwise the default stays the sentinel −1. -/
def SubsetAtomMapper.ofList (map : List Int)
    (include_catchall : Bool := true) : SubsetAtomMapper where
  old2new x := (idxOf? map x).map fun i => ((i : Nat) : Int)
  default_type := if include_catchall then ((map.length : Nat) : Int) else -1
  num_new_types := map.length + (if include_catchall then 1 else 0)

/-- Modelled from the spec: the grouped/surjective `SubsetAtomMapper`
constructor (body in `atom_typer.cpp`).  Spec §4.3 (b): every id inside
group `i` maps to new category `i`; when groups overlap the later group's
assignment wins; catch-all behaviour as in the flat mode. -/
def SubsetAtomMapper.ofGroups (groups : List (List Int))
    (include_catchall : Bool := true) : SubsetAtomMapper where
  old2new x := (lastMem? x groups).map fun i => ((i : Nat) : Int)
  default_type := if include_catchall then ((groups.length : Nat) : Int) else -1
  num_new_types := groups.length + (if include_catchall then 1 else 0)

/-- `SubsetAtomMapper::num_types` (atom_typer.h line 318). -/
def SubsetAtomMapper.num_types (s : SubsetAtomMapper) : Nat :=
  s.num_new_types

/-- Modelled from the spec: `SubsetAtomMapper::get_type` (body in
`atom_typer.cpp`): look the (sign-converted) id up in `old2new`, falling
back to `default_type` when absent. -/
def SubsetAtomMapper.get_type (s : SubsetAtomMapper) (origt : Nat) : Int :=
  match s.old2new (unsignedToInt origt) with
  | some t => t
  | none => s.default_type

theorem idxOf?_eq_none_iff {α : Type} [DecidableEq α] {xs : List α} {x : α} :
    idxOf? xs x = none ↔ x ∉ xs := by
  induction xs with
  | nil => simp [idxOf?]
  | cons y ys ih =>
    by_cases h : y = x
    · subst h; simp [idxOf?]
    · simp [idxOf?, h, ih, Ne.symm h]

theorem idxOf?_some {α : Type} [DecidableEq α] {xs : List α} {x : α} {j : Nat}
    (h : idxOf? xs x = some j) : xs[j]? = some x := by
  induction xs generalizing j with
  | nil => simp [idxOf?] at h
  | cons y ys ih =>
    by_cases hy : y = x
    · subst hy
      simp [idxOf?] at h
      subst h
      simp
    · simp only [idxOf?, if_neg hy, Option.map_eq_some'] at h
      obtain ⟨k, hk, rfl⟩ := h
      simpa using ih hk

theorem idxOf?_of_getElem? {α : Type} [DecidableEq α] {xs : List α}
    (hnd : xs.Nodup) {x : α} {j : Nat} (h : xs[j]? = some x) :
    idxOf? xs x = some j := by
  induction xs generalizing j with
  | nil => simp at h
  | cons y ys ih =>
    obtain ⟨hy, hys⟩ := List.nodup_cons.mp hnd
    cases j with
    | zero =>
      simp only [List.getElem?_cons_zero, Option.some_inj] at h
      subst h
      simp [idxOf?]
    | succ k =>
      simp only [List.getElem?_cons_succ] at h
      have hx : x ∈ ys := List.getElem?_mem h
      have hne : y ≠ x := fun he => hy (he ▸ hx)
      simp [idxOf?, hne, ih hys h]

theorem lastMem?_eq_none_iff {α : Type} [DecidableEq α] {x : α}
    {gs : List (List α)} :
    lastMem? x gs = none ↔ ∀ g ∈ gs, x ∉ g := by
  induction gs with
  | nil => simp [lastMem?]
  | cons g gs ih =>
    cases hg : lastMem? x gs with
    | some k => simp only [lastMem?, hg]; simp [hg ▸ ih.symm, hg]
    | none =>
      have hall := ih.mp hg
      by_cases hx : x ∈ g
      · simp [lastMem?, hg, hx]
      · simp only [lastMem?, hg, if_neg hx]
        simp only [List.mem_cons, eq_self_iff_true, true_iff]
        intro g2 hg2
        rcases hg2 with rfl | hg2
        · exact hx
        · exact hall g2 hg2

theorem lastMem?_eq_some_of {α : Type} [DecidableEq α] {x : α}
    {gs : List (List α)} {i : Nat} (hi : i < gs.length)
    (hx : x ∈ gs.getD i []) (hothers : ∀ k, k < gs.length → k ≠ i → x ∉ gs.getD k []) :
    lastMem? x gs = some i := by
  induction gs generalizing i with
  | nil => exact absurd hi (by simp)
  | cons g gs ih =>
    cases i with
    | zero =>
      have hnone : lastMem? x gs = none := by
        rw [lastMem?_eq_none_iff]
        intro g2 hg2
        obtain ⟨k, hk⟩ := List.getElem?_of_mem hg2
        have hklt : k < gs.length := (List.getElem?_eq_some.mp hk).1
        have := hothers (k + 1) (by simpa using Nat.succ_lt_succ hklt) (by simp)
        simpa [List.getD, hk] using this
      simp only [List.getD_cons_zero] at hx
      simp [lastMem?, hnone, hx]
    | succ j =>
      have hj : j < gs.length := by simpa using Nat.lt_of_succ_lt_succ hi
      have hrec : lastMem? x gs = some j := by
        apply ih hj (by simpa using hx)
        intro k hk hkj
        have := hothers (k + 1) (by simpa using Nat.succ_lt_succ hk)
          (by simpa using hkj)
        simpa using this
      simp [lastMem?, hrec]

theorem applyLine_ok {old : List String} (hnd : old.Nodup) (i : Int)
    (tokens : List String) :
    ∀ (m : List Int), m.length = old.length →
    (∀ t ∈ tokens, t ∈ old) →
    ∃ m2, applyLine old i tokens m = .ok m2 ∧ m2.length = old.length ∧
      ∀ (j : Nat) (x : String), old[j]? = some x →
        m2[j]? = if x ∈ tokens then some i else m[j]? := by
  induction tokens with
  | nil =>
    intro m hm _
    exact ⟨m, rfl, hm, fun j x _ => by simp⟩
  | cons t ts ih =>
    intro m hm hv
    have ht : t ∈ old := hv t (by simp)
    obtain ⟨jt, hjt⟩ : ∃ jt, idxOf? old t = some jt := by
      cases hcase : idxOf? old t with
      | none => exact absurd (idxOf?_eq_none_iff.mp hcase) (by simp [ht])
      | some jt => exact ⟨jt, rfl⟩
    have hjt2 : old[jt]? = some t := idxOf?_some hjt
    have hjtlt : jt < old.length := (List.getElem?_eq_some.mp hjt2).1
    have hm2 : (m.set jt i).length = old.length := by simp [hm]
    obtain ⟨m2, hrun, hlen, hentry⟩ :=
      ih (m.set jt i) hm2 (fun u hu => hv u (by simp [hu]))
    refine ⟨m2, ?_, hlen, ?_⟩
    · simp [applyLine, hjt, hrun]
    · intro j x hjx
      rw [hentry j x hjx]
      by_cases hmem : x ∈ ts
      · simp [hmem]
      · by_cases hxt : x = t
        · subst hxt
          have hj : j = jt := by
            have h1 := idxOf?_of_getElem? hnd hjx
            rw [hjt] at h1
            exact (Option.some_inj.mp h1).symm
          subst hj
          have hset : (m.set j i)[j]? = some i := by
            rw [List.getElem?_set]
            simp [hm ▸ hjtlt]
          simp [hmem, hset]
        · have hjne : jt ≠ j := by
            intro he
            subst he
            rw [hjx] at hjt2
            exact hxt (Option.some_inj.mp hjt2)
          have hset : (m.set jt i)[j]? = m[j]? := List.getElem?_set_ne hjne
          simp [hmem, hxt, hset]

theorem setupAux_ok {old : List String} (hnd : old.Nodup)
    (lines : List (List String)) :
    ∀ (i : Nat) (m : List Int) (names : List String),
    m.length = old.length →
    (∀ l ∈ lines, ∀ t ∈ l, t ∈ old) →
    ∃ m2 names2, setupAux old lines i m names = .ok (m2, names2) ∧
      m2.length = old.length ∧
      names2.length = names.length + lines.length ∧
      ∀ (j : Nat) (x : String), old[j]? = some x →
        m2[j]? = (match lastMem? x lines with
                  | some k => some (((i + k : Nat) : Int))
                  | none => m[j]?) := by
  induction lines with
  | nil =>
    intro i m names hm _
    exact ⟨m, names.reverse, rfl, hm, by simp [setupAux], fun j x _ => by
      simp [lastMem?]⟩
  | cons l ls ih =>
    intro i m names hm hv
    obtain ⟨m1, hrun1, hlen1, hentry1⟩ :=
      applyLine_ok hnd ((i : Nat) : Int) l m hm (hv l (by simp))
    obtain ⟨m2, names2, hrun2, hlen2, hnames2, hentry2⟩ :=
      ih (i + 1) m1 (lineName l :: names) hlen1
        (fun l2 hl2 t ht => hv l2 (by simp [hl2]) t ht)
    refine ⟨m2, names2, ?_, hlen2, ?_, ?_⟩
    · simp [setupAux, hrun1, hrun2]
    · simp only [hnames2, List.length_cons]
      omega
    · intro j x hjx
      rw [hentry2 j x hjx, hentry1 j x hjx]
      cases hls : lastMem? x ls with
      | some k =>
        simp only [lastMem?, hls]
        congr 1
        push_cast
        omega
      | none =>
        by_cases hxl : x ∈ l
        · simp [lastMem?, hls, hxl]
        · simp [lastMem?, hls, hxl]

/-- A placeholder per-category info record used to instantiate the
abstract info table on concrete inputs. -/
def dummyInfo : GninaInfo :=
  { sm := .Hydrogen, smina_name := "Hydrogen", adname := "H", anum := 1,
    ad_radius := 1, ad_depth := 0, ad_solvation := 0, ad_volume := 0,
    covalent_radius := 37/100, xs_radius := 1,
    xs_hydrophobe := false, xs_donor := false, xs_acceptor := false,
    ad_heteroatom := false }

/-- A constant info table for concrete instantiations. -/
def dummyData : GninaType → GninaInfo := fun _ => dummyInfo

/-- A concrete aromatic carbon with no heteroatom neighbour. -/
def carbonAtom : Atom :=
  { atomic_number := 6, aromatic := true, attached_to_donor := false,
    is_donor := false, is_acceptor := false, bonded_to_heteroatom := false,
    is_metallic := false, charge := 0 }

/-- A concrete mapper that sends every category to the unmapped
sentinel −1. -/
def sentinelMapper : AtomIndexTypeMapper where
  num_types := 2
  get_type _ := -1
  get_type_names := ["X", "Y"]

/-- A concrete index typer over a trivial atom type. -/
def unitTyper : AtomIndexTyper Unit where
  num_types := 5
  get_type _ := (3, 3/2)
  get_type_names := ["a", "b", "c", "d", "e"]

/-- C1: for every mapper `M`, index typer `T` and atom `a`,
`MappedAtomIndexTyper(M,T).get_type(a)` returns the pair whose category is
the wrapped typer's category passed through the mapper (the C++ call
converts the `int` category to the mapper's `unsigned` parameter) and
whose radius is the wrapped typer's radius unchanged; `num_types` and
`get_type_names` delegate to the mapper. -/
theorem mappedAtomIndexTyper_composition {A : Type}
    (M : AtomIndexTypeMapper) (T : AtomIndexTyper A) (a : A) :
    (MappedAtomIndexTyper M T).get_type a
      = (M.get_type (intToUnsigned (T.get_type a).1), (T.get_type a).2) ∧
    (MappedAtomIndexTyper M T).num_types = M.num_types ∧
    (MappedAtomIndexTyper M T).get_type_names = M.get_type_names :=
  ⟨rfl, rfl, rfl⟩

/-- C9: the composition adapter propagates the unmapped sentinel: when the
mapper sends the wrapped typer's category to −1, the composed `get_type`
returns (−1, radius) with no failure. -/
theorem mappedAtomIndexTyper_propagates_sentinel {A : Type}
    (M : AtomIndexTypeMapper) (T : AtomIndexTyper A) (a : A)
    (h : M.get_type (intToUnsigned (T.get_type a).1) = -1) :
    (MappedAtomIndexTyper M T).get_type a = (-1, (T.get_type a).2) := by
  simp only [MappedAtomIndexTyper, h]

/-- Witness for C9 at a concrete mapper/typer/atom. -/
theorem mappedAtomIndexTyper_propagates_sentinel_witness :
    sentinelMapper.get_type (intToUnsigned (unitTyper.get_type ()).1) = -1 ∧
    (MappedAtomIndexTyper sentinelMapper unitTyper).get_type () = (-1, 3/2) := by
  have h : sentinelMapper.get_type (intToUnsigned (unitTyper.get_type ()).1) = -1 := rfl
  exact ⟨h, mappedAtomIndexTyper_propagates_sentinel sentinelMapper unitTyper () h⟩

/-- C8 counterexample: a mapper lookup with an id outside its declared
domain does not fail — the inherited `AtomIndexTypeMapper::get_type`
declares zero types yet returns the queried id 5 unchanged as a value. -/
theorem mapper_out_of_range_returns_value :
    AtomIndexTypeMapper.default_num_types = 0 ∧
    AtomIndexTypeMapper.default_get_type 5 = 5 := by
  constructor
  · rfl
  · rfl

/-- C8 (amended): out-of-domain lookups are unchecked rather than raising
`IndexOutOfRange`: the base mapper's `get_type` returns the id unchanged
for every id (its declared domain is empty), and `GninaIndexTyper::get_info`
reads the table with no bounds check, so only ids inside [0, NumTypes)
have a defined result. -/
theorem out_of_range_unchecked (origt : Nat) (data : GninaType → GninaInfo)
    (t : Int) (h : origt < 2147483648) :
    AtomIndexTypeMapper.default_get_type origt = ((origt : Nat) : Int) ∧
    ((0 ≤ t ∧ t < 28) → (GninaIndexTyper.get_info data t).isSome = true) ∧
    (¬(0 ≤ t ∧ t < 28) → GninaIndexTyper.get_info data t = none) := by
  refine ⟨?_, ?_, ?_⟩
  · unfold AtomIndexTypeMapper.default_get_type unsignedToInt
    have h1 : origt % UINT32_MOD = origt :=
      Nat.mod_eq_of_lt (lt_trans h (by norm_num [UINT32_MOD]))
    simp only [h1]
    rw [if_pos h]
  · intro ht
    simp [GninaIndexTyper.get_info, GninaType.toIdx, ht]
  · intro ht
    simp only [GninaIndexTyper.get_info, GninaType.toIdx]
    rw [if_neg (by exact_mod_cast ht)]

/-- Witness for C8's amended statement at concrete inputs. -/
theorem out_of_range_unchecked_witness :
    AtomIndexTypeMapper.default_get_type 5 = ((5 : Nat) : Int) ∧
    GninaIndexTyper.get_info dummyData 40 = none := by
  obtain ⟨h1, _, h3⟩ := out_of_range_unchecked 5 dummyData 40 (by norm_num)
  exact ⟨h1, h3 (by norm_num)⟩

/-- C7: the atomic-number classifier returns the atomic number as category
when it is below the cutoff and category 0 otherwise, with the radius
taken from the per-element table (fallback constant above the cutoff);
`num_types` equals the cutoff, whose constructor default is 84; with
cutoff 84 an atom of atomic number 83 gets category 83 and one of atomic
number 84 gets category 0. -/
theorem elementIndexTyper_spec (last_elem : Nat) (radii : Nat → ℚ)
    (default_radius : ℚ) (a : Atom) :
    ElementIndexTyper.get_type last_elem radii default_radius a =
      (if a.atomic_number < last_elem then ((a.atomic_number : Nat) : Int) else 0,
       if a.atomic_number < last_elem then radii a.atomic_number else default_radius) ∧
    ElementIndexTyper.num_types last_elem = last_elem ∧
    ElementIndexTyper.default_max = 84 ∧
    (ElementIndexTyper.get_type 84 radii default_radius
      { a with atomic_number := 83 }).1 = 83 ∧
    (ElementIndexTyper.get_type 84 radii default_radius
      { a with atomic_number := 84 }).1 = 0 := by
  refine ⟨?_, rfl, rfl, ?_, ?_⟩
  · unfold ElementIndexTyper.get_type
    split_ifs <;> rfl
  · simp [ElementIndexTyper.get_type]
  · simp [ElementIndexTyper.get_type]

/-- Every concrete enum category has a value strictly below 28. -/
theorem concrete_toIdx_lt : ∀ g ∈ GninaType.concreteList, g.toIdx < 28 := by
  decide

/-- Every classification the rule-based decision procedure can produce is
one of the concrete (non-sentinel) enum categories. -/
theorem type_of_concrete (a : Atom) (g : GninaType)
    (h : GninaIndexTyper.type_of a = .ok g) :
    g ∈ GninaType.concreteList := by
  unfold GninaIndexTyper.type_of at h
  by_cases c1 : a.atomic_number = 1
  · rw [if_pos c1] at h
    injection h with h2
    subst h2
    repeat' split
    all_goals decide
  rw [if_neg c1] at h
  by_cases c2 : a.atomic_number = 6
  · rw [if_pos c2] at h
    injection h with h2
    subst h2
    repeat' split
    all_goals decide
  rw [if_neg c2] at h
  by_cases c3 : a.atomic_number = 7
  · rw [if_pos c3] at h
    injection h with h2
    subst h2
    repeat' split
    all_goals decide
  rw [if_neg c3] at h
  by_cases c4 : a.atomic_number = 8
  · rw [if_pos c4] at h
    injection h with h2
    subst h2
    repeat' split
    all_goals decide
  rw [if_neg c4] at h
  by_cases c5 : a.atomic_number = 16
  · rw [if_pos c5] at h
    injection h with h2
    subst h2
    repeat' split
    all_goals decide
  rw [if_neg c5] at h
  by_cases c6 : a.atomic_number = 15
  · rw [if_pos c6] at h
    injection h with h2
    subst h2
    decide
  rw [if_neg c6] at h
  by_cases c7 : a.atomic_number = 9
  · rw [if_pos c7] at h
    injection h with h2
    subst h2
    decide
  rw [if_neg c7] at h
  by_cases c8 : a.atomic_number = 17
  · rw [if_pos c8] at h
    injection h with h2
    subst h2
    decide
  rw [if_neg c8] at h
  by_cases c9 : a.atomic_number = 35
  · rw [if_pos c9] at h
    injection h with h2
    subst h2
    decide
  rw [if_neg c9] at h
  by_cases c10 : a.atomic_number = 53
  · rw [if_pos c10] at h
    injection h with h2
    subst h2
    decide
  rw [if_neg c10] at h
  by_cases c11 : a.atomic_number = 12
  · rw [if_pos c11] at h
    injection h with h2
    subst h2
    decide
  rw [if_neg c11] at h
  by_cases c12 : a.atomic_number = 25
  · rw [if_pos c12] at h
    injection h with h2
    subst h2
    decide
  rw [if_neg c12] at h
  by_cases c13 : a.atomic_number = 30
  · rw [if_pos c13] at h
    injection h with h2
    subst h2
    decide
  rw [if_neg c13] at h
  by_cases c14 : a.atomic_number = 20
  · rw [if_pos c14] at h
    injection h with h2
    subst h2
    decide
  rw [if_neg c14] at h
  by_cases c15 : a.atomic_number = 26
  · rw [if_pos c15] at h
    injection h with h2
    subst h2
    decide
  rw [if_neg c15] at h
  by_cases c16 : a.atomic_number = 5
  · rw [if_pos c16] at h
    injection h with h2
    subst h2
    decide
  rw [if_neg c16] at h
  by_cases cm : a.is_metallic = true
  · rw [if_pos cm] at h
    injection h with h2
    subst h2
    decide
  rw [if_neg cm] at h
  cases h

/-- C2 counterexample: the `type` enum declares 28 concrete categories,
not 27 — `Boron`, the 28th concrete category, carries value 27, the value
the claim reserves for the count sentinel. -/
theorem gninaTyper_27_categories_counterexample :
    GninaType.concreteList.length = 28 ∧
    GninaType.Boron ∈ GninaType.concreteList ∧
    GninaType.Boron.toIdx = 27 ∧
    ¬ GninaType.concreteList.length = 27 := by decide

/-- C2 (amended): the rule-based classifier's fixed category count is 28,
consisting of exactly 28 concrete categories (values 0–27, `Hydrogen`
through `Boron`) with the count sentinel `NumTypes` carrying value 28;
every category id the classifier produces is the value of a concrete
category, so it lies in [0, 28) and indexes the info table. -/
theorem gninaTyper_category_count_and_range (use_covalent : Bool)
    (data : GninaType → GninaInfo) (a : Atom) (t : Int) (r : ℚ)
    (h : GninaIndexTyper.get_type use_covalent data a = .ok (t, r)) :
    GninaIndexTyper.num_types = 28 ∧
    GninaType.concreteList.length = 28 ∧
    (∀ g : GninaType, g ∈ GninaType.concreteList ↔ g ≠ GninaType.NumTypes) ∧
    GninaType.NumTypes.toIdx = 28 ∧
    0 ≤ t ∧ t < 28 ∧
    ∃ g ∈ GninaType.concreteList, t = ((g.toIdx : Nat) : Int) := by
  refine ⟨rfl, rfl, by decide, rfl, ?_⟩
  unfold GninaIndexTyper.get_type at h
  cases hto : GninaIndexTyper.type_of a with
  | error e =>
    rw [hto] at h
    cases h
  | ok g =>
    rw [hto] at h
    simp only [Except.map] at h
    injection h with h2
    obtain ⟨ht, hr⟩ := Prod.mk.inj h2
    subst ht
    have hg : g ∈ GninaType.concreteList := type_of_concrete a g hto
    have hlt : g.toIdx < 28 := concrete_toIdx_lt g hg
    refine ⟨by positivity, by exact_mod_cast hlt, g, hg, rfl⟩

/-- Witness for C2's amended statement: an aromatic hydrophobic carbon is
classified with category 4, inside [0, 28). -/
theorem gninaTyper_category_count_and_range_witness :
    GninaIndexTyper.get_type false dummyData carbonAtom = .ok (4, 1) ∧
    GninaIndexTyper.num_types = 28 ∧ (0 : Int) ≤ 4 ∧ (4 : Int) < 28 := by
  have h : GninaIndexTyper.get_type false dummyData carbonAtom = .ok (4, 1) := rfl
  obtain ⟨h1, _, _, _, h5, h6, _⟩ :=
    gninaTyper_category_count_and_range false dummyData carbonAtom 4 1 h
  exact ⟨h, h1, h5, h6⟩

/-- Every element bucket lies in the one-hot block [0, 17). -/
theorem elementBucket_lt : ∀ g : GninaType, GninaVectorTyper.elementBucket g < 17 := by
  decide

/-- Entry `i` of the one-hot block is 1 at position `k` and 0 elsewhere. -/
theorem onehot17_getElem? (k i : Nat) (hi : i < 17) :
    (onehot17 k)[i]? = some (if i = k then 1 else 0) := by
  simp [onehot17, List.getElem?_range hi]

/-- The one-hot block has 17 entries. -/
theorem onehot17_length (k : Nat) : (onehot17 k).length = 17 := by
  simp [onehot17]

/-- C3: every successful `GninaVectorTyper::get_type` output has exactly
`num_types()` = 25 entries; exactly one of the first 17 entries (the
one-hot element block) is 1.0 and the rest of that block are 0.0; and
each boolean-flag entry (hydrophobe, donor, acceptor, heteroatom, at
positions 20–23) is exactly 0.0 or 1.0. -/
theorem gninaVectorTyper_onehot (use_covalent : Bool)
    (data : GninaType → GninaInfo) (a : Atom) (v : List ℚ) (r : ℚ)
    (h : GninaVectorTyper.get_type use_covalent data a = .ok (v, r)) :
    v.length = GninaVectorTyper.num_types ∧
    GninaVectorTyper.num_types = 25 ∧
    (∃ k, k < 17 ∧ ∀ i, i < 17 → v[i]? = some (if i = k then 1 else 0)) ∧
    (v[20]? = some 0 ∨ v[20]? = some 1) ∧
    (v[21]? = some 0 ∨ v[21]? = some 1) ∧
    (v[22]? = some 0 ∨ v[22]? = some 1) ∧
    (v[23]? = some 0 ∨ v[23]? = some 1) := by
  unfold GninaVectorTyper.get_type at h
  cases hto : GninaIndexTyper.type_of a with
  | error e =>
    rw [hto] at h
    cases h
  | ok g =>
    rw [hto] at h
    simp only at h
    injection h with h2
    obtain ⟨hv, hr⟩ := Prod.mk.inj h2
    subst hv
    have hb := elementBucket_lt g
    have hlen := onehot17_length (GninaVectorTyper.elementBucket g)
    have htail : ∀ i : Nat, 17 ≤ i →
        (onehot17 (GninaVectorTyper.elementBucket g) ++
          [(data g).ad_depth, (data g).ad_solvation, (data g).ad_volume,
           boolToQ (data g).xs_hydrophobe, boolToQ (data g).xs_donor,
           boolToQ (data g).xs_acceptor, boolToQ (data g).ad_heteroatom,
           a.charge])[i]?
          = [(data g).ad_depth, (data g).ad_solvation, (data g).ad_volume,
             boolToQ (data g).xs_hydrophobe, boolToQ (data g).xs_donor,
             boolToQ (data g).xs_acceptor, boolToQ (data g).ad_heteroatom,
             a.charge][i - 17]? := by
      intro i hi
      rw [List.getElem?_append_right (hlen ▸ hi)]
      rw [hlen]
    refine ⟨?_, rfl, ⟨GninaVectorTyper.elementBucket g, hb, ?_⟩, ?_, ?_, ?_, ?_⟩
    · simp [hlen, GninaVectorTyper.num_types]
    · intro i hi
      rw [List.getElem?_append, hlen, if_pos hi]
      exact onehot17_getElem? _ i hi
    · rw [htail 20 (by norm_num)]
      cases hx : (data g).xs_hydrophobe <;> simp [boolToQ, hx]
    · rw [htail 21 (by norm_num)]
      cases hx : (data g).xs_donor <;> simp [boolToQ, hx]
    · rw [htail 22 (by norm_num)]
      cases hx : (data g).xs_acceptor <;> simp [boolToQ, hx]
    · rw [htail 23 (by norm_num)]
      cases hx : (data g).ad_heteroatom <;> simp [boolToQ, hx]

/-- Witness for C3: the vector produced for a concrete aromatic carbon. -/
theorem gninaVectorTyper_onehot_witness :
    GninaVectorTyper.get_type false dummyData carbonAtom
      = .ok (onehot17 1 ++ [0, 0, 0, 0, 0, 0, 0, 0], 1) ∧
    (onehot17 1 ++ [0, 0, 0, 0, 0, 0, 0, 0] : List ℚ).length = 25 ∧
    (∃ k, k < 17 ∧ ∀ i, i < 17 →
      (onehot17 1 ++ [0, 0, 0, 0, 0, 0, 0, 0] : List ℚ)[i]?
        = some (if i = k then 1 else 0)) := by
  have h : GninaVectorTyper.get_type false dummyData carbonAtom
      = .ok (onehot17 1 ++ [0, 0, 0, 0, 0, 0, 0, 0], 1) := rfl
  obtain ⟨h1, h2, h3, _⟩ :=
    gninaVectorTyper_onehot false dummyData carbonAtom
      (onehot17 1 ++ [0, 0, 0, 0, 0, 0, 0, 0]) 1 h
  exact ⟨h, h2 ▸ h1, h3⟩

/-- C4: every non-empty line of the mapping source defines exactly one
new category whose index is the line's 0-based position; every original
name on a line maps to that index (for names appearing on a single line);
every original name mentioned on no line maps to the unmapped sentinel
−1; `num_types` is the number of lines. -/
theorem fileAtomMapper_lines_define_categories
    (old : List String) (lines : List (List String))
    (hnd : old.Nodup)
    (hne : ∀ l ∈ lines, l ≠ [])
    (hv : ∀ l ∈ lines, ∀ t ∈ l, t ∈ old) :
    ∃ fm, FileAtomMapper.setup old lines = .ok fm ∧
      fm.num_types = lines.length ∧
      (∀ i j : Nat, i < lines.length → j < old.length →
        old.getD j "" ∈ lines.getD i [] →
        (∀ k, k < lines.length → k ≠ i → old.getD j "" ∉ lines.getD k []) →
        fm.get_type j = ((i : Nat) : Int)) ∧
      (∀ j : Nat, j < old.length → (∀ l ∈ lines, old.getD j "" ∉ l) →
        fm.get_type j = -1) := by
  have hfilter : lines.filter (fun l => !l.isEmpty) = lines := by
    rw [List.filter_eq_self]
    intro l hl
    simp [List.isEmpty_iff, hne l hl]
  obtain ⟨m2, names2, hrun, hlen, hnames, hentry⟩ :=
    setupAux_ok hnd lines 0 (List.replicate old.length (-1)) [] (by simp) hv
  refine ⟨⟨old, m2, names2⟩, ?_, ?_, ?_, ?_⟩
  · unfold FileAtomMapper.setup
    rw [hfilter]
    simp only [hrun]
  · simpa [FileAtomMapper.num_types] using hnames
  · intro i j hi hj hmem hothers
    have hjx : old[j]? = some (old.getD j "") := by
      rw [List.getElem?_eq_getElem hj, old.getD_eq_getElem _ hj]
    have hlast : lastMem? (old.getD j "") lines = some i :=
      lastMem?_eq_some_of hi hmem hothers
    unfold FileAtomMapper.get_type
    simp only [hentry j _ hjx, hlast]
    simp
  · intro j hj hnot
    have hjx : old[j]? = some (old.getD j "") := by
      rw [List.getElem?_eq_getElem hj, old.getD_eq_getElem _ hj]
    have hlast : lastMem? (old.getD j "") lines = none :=
      lastMem?_eq_none_iff.mpr hnot
    unfold FileAtomMapper.get_type
    simp only [hentry j _ hjx, hlast]
    simp [List.getElem?_replicate, hj]

/-- Witness for C4 at the spec's concrete example: names ["A","B","C"],
mapping-file lines "A B" and "C". -/
theorem fileAtomMapper_lines_define_categories_witness :
    ∃ fm, FileAtomMapper.setup ["A", "B", "C"] [["A", "B"], ["C"]] = .ok fm ∧
      fm.num_types = 2 ∧ fm.get_type 0 = 0 ∧ fm.get_type 1 = 0 ∧
      fm.get_type 2 = 1 := by
  obtain ⟨fm, hok, hnum, hmem, _⟩ :=
    fileAtomMapper_lines_define_categories ["A", "B", "C"] [["A", "B"], ["C"]]
      (by decide) (by decide) (by decide)
  have h0 : fm.get_type 0 = 0 := by
    have := hmem 0 0 (by norm_num) (by norm_num) (by decide)
      (by intro k hk hki
          rcases k with _ | _ | n
          · exact absurd rfl hki
          · decide
          · exact absurd hk (by norm_num))
    simpa using this
  have h1 : fm.get_type 1 = 0 := by
    have := hmem 0 1 (by norm_num) (by norm_num) (by decide)
      (by intro k hk hki
          rcases k with _ | _ | n
          · exact absurd rfl hki
          · decide
          · exact absurd hk (by norm_num))
    simpa using this
  have h2 : fm.get_type 2 = 1 := by
    have := hmem 1 2 (by norm_num) (by norm_num) (by decide)
      (by intro k hk hki
          rcases k with _ | _ | n
          · decide
          · exact absurd rfl hki
          · exact absurd hk (by norm_num))
    simpa using this
  exact ⟨fm, hok, hnum, h0, h1, h2⟩

/-- `applyLine` only ever fails with `UnknownTypeName`. -/
theorem applyLine_error_name {old : List String} (i : Int) :
    ∀ (tokens : List String) (m : List Int) (e : String),
    applyLine old i tokens m = .error e → e = UnknownTypeName := by
  intro tokens
  induction tokens with
  | nil => intro m e h; cases h
  | cons t ts ih =>
    intro m e h
    unfold applyLine at h
    cases hidx : idxOf? old t with
    | none =>
      rw [hidx] at h
      cases h
      rfl
    | some j =>
      rw [hidx] at h
      exact ih (m.set j i) e h

/-- If `applyLine` succeeds, every token on the line was a known
original-type name. -/
theorem applyLine_ok_tokens_known {old : List String} (i : Int) :
    ∀ (tokens : List String) (m m2 : List Int),
    applyLine old i tokens m = .ok m2 → ∀ t ∈ tokens, t ∈ old := by
  intro tokens
  induction tokens with
  | nil => intro m m2 _ t ht; cases ht
  | cons u ts ih =>
    intro m m2 h t ht
    unfold applyLine at h
    cases hidx : idxOf? old u with
    | none => rw [hidx] at h; cases h
    | some j =>
      rw [hidx] at h
      rcases List.mem_cons.mp ht with rfl | hts
      · by_contra hnot
        rw [idxOf?_eq_none_iff.mpr hnot] at hidx
        cases hidx
      · exact ih (m.set j i) m2 h t hts

/-- `setupAux` only ever fails with `UnknownTypeName`. -/
theorem setupAux_error_name {old : List String} :
    ∀ (lines : List (List String)) (i : Nat) (m : List Int)
      (names : List String) (e : String),
    setupAux old lines i m names = .error e → e = UnknownTypeName := by
  intro lines
  induction lines with
  | nil => intro i m names e h; cases h
  | cons l ls ih =>
    intro i m names e h
    unfold setupAux at h
    cases happ : applyLine old ((i : Nat) : Int) l m with
    | error e2 =>
      rw [happ] at h
      cases h
      exact applyLine_error_name _ l m e happ
    | ok m2 =>
      rw [happ] at h
      exact ih (i + 1) m2 (lineName l :: names) e h

/-- If `setupAux` succeeds, every token of every processed line was a
known original-type name. -/
theorem setupAux_ok_tokens_known {old : List String} :
    ∀ (lines : List (List String)) (i : Nat) (m : List Int)
      (names : List String) (res : List Int × List String),
    setupAux old lines i m names = .ok res →
    ∀ l ∈ lines, ∀ t ∈ l, t ∈ old := by
  intro lines
  induction lines with
  | nil => intro i m names res _ l hl; cases hl
  | cons l2 ls ih =>
    intro i m names res h l hl t ht
    unfold setupAux at h
    cases happ : applyLine old ((i : Nat) : Int) l2 m with
    | error e2 => rw [happ] at h; cases h
    | ok m2 =>
      rw [happ] at h
      rcases List.mem_cons.mp hl with rfl | hls
      · exact applyLine_ok_tokens_known _ l m m2 happ t ht
      · exact ih (i + 1) m2 (lineName l2 :: names) res h l hls t ht

/-- C5: file-driven mapper construction fails with `UnknownTypeName`
whenever any line references a name absent from the supplied
original-type-name list — construction aborts instead of skipping the
name. -/
theorem fileAtomMapper_unknown_name_fails (old : List String)
    (lines : List (List String)) (l : List String) (t : String)
    (hl : l ∈ lines) (ht : t ∈ l) (hto : t ∉ old) :
    FileAtomMapper.setup old lines = .error UnknownTypeName := by
  unfold FileAtomMapper.setup
  cases hrun : setupAux old (lines.filter fun l => !l.isEmpty) 0
      (List.replicate old.length (-1)) [] with
  | error e =>
    have he : e = UnknownTypeName := setupAux_error_name _ _ _ _ _ hrun
    subst he
    simp only [hrun]
  | ok res =>
    exfalso
    have hlf : l ∈ lines.filter fun l => !l.isEmpty := by
      rw [List.mem_filter]
      refine ⟨hl, ?_⟩
      simp only [Bool.not_eq_true']
      rw [← Bool.not_eq_true, List.isEmpty_iff]
      intro he
      rw [he] at ht
      cases ht
    exact hto (setupAux_ok_tokens_known _ _ _ _ _ hrun l hlf t ht)

/-- Witness for C5: the single line "B" against original names ["A"]. -/
theorem fileAtomMapper_unknown_name_fails_witness :
    FileAtomMapper.setup ["A"] [["B"]] = .error UnknownTypeName :=
  fileAtomMapper_unknown_name_fails ["A"] [["B"]] ["B"] "B"
    (by decide) (by decide) (by decide)

/-- `unsigned → int` conversion is the identity below 2^31. -/
theorem unsignedToInt_small (n : Nat) (h : n < 2147483648) :
    unsignedToInt n = ((n : Nat) : Int) := by
  unfold unsignedToInt
  have h1 : n % UINT32_MOD = n :=
    Nat.mod_eq_of_lt (lt_trans h (by norm_num [UINT32_MOD]))
  simp only [h1]
  rw [if_pos h]

/-- C6: the flat subset mapper sends each listed id to its position in
the list; with the catch-all flag, `num_types` is the list length + 1 and
every unlisted id maps to the appended catch-all index; without it,
unlisted ids map to the unmapped sentinel −1. -/
theorem subsetAtomMapper_flat_spec (map : List Int) (hnd : map.Nodup)
    (hbound : ∀ x ∈ map, 0 ≤ x ∧ x < 2147483648) :
    (SubsetAtomMapper.ofList map true).num_types = map.length + 1 ∧
    (SubsetAtomMapper.ofList map false).num_types = map.length ∧
    (∀ (c : Bool) (i : Nat), i < map.length →
      (SubsetAtomMapper.ofList map c).get_type (map.getD i 0).toNat
        = ((i : Nat) : Int)) ∧
    (∀ t : Nat, t < 2147483648 → ((t : Nat) : Int) ∉ map →
      (SubsetAtomMapper.ofList map true).get_type t = ((map.length : Nat) : Int) ∧
      (SubsetAtomMapper.ofList map false).get_type t = -1) := by
  refine ⟨by simp [SubsetAtomMapper.ofList, SubsetAtomMapper.num_types],
    by simp [SubsetAtomMapper.ofList, SubsetAtomMapper.num_types], ?_, ?_⟩
  · intro c i hi
    have hmem : map.getD i 0 ∈ map := by
      rw [map.getD_eq_getElem 0 hi]
      exact List.getElem_mem hi
    obtain ⟨hx0, hx1⟩ := hbound _ hmem
    have htn : (map.getD i 0).toNat < 2147483648 := by omega
    have hround : (((map.getD i 0).toNat : Nat) : Int) = map.getD i 0 :=
      Int.toNat_of_nonneg hx0
    have hidx : idxOf? map (map.getD i 0) = some i := by
      apply idxOf?_of_getElem? hnd
      rw [List.getElem?_eq_getElem hi, map.getD_eq_getElem 0 hi]
    simp only [SubsetAtomMapper.get_type, SubsetAtomMapper.ofList,
      unsignedToInt_small _ htn, hround, hidx, Option.map_some']
  · intro t htlt htmem
    have hu : unsignedToInt t = ((t : Nat) : Int) := unsignedToInt_small t htlt
    have hidx : idxOf? map ((t : Nat) : Int) = none := idxOf?_eq_none_iff.mpr htmem
    constructor <;>
    · simp only [SubsetAtomMapper.get_type, SubsetAtomMapper.ofList, hu, hidx,
        Option.map_none']
      simp

/-- Witness for C6 at the spec's concrete example: subset [2, 5]. -/
theorem subsetAtomMapper_flat_spec_witness :
    (SubsetAtomMapper.ofList [2, 5] true).num_types = 3 ∧
    (SubsetAtomMapper.ofList [2, 5] true).get_type 2 = 0 ∧
    (SubsetAtomMapper.ofList [2, 5] true).get_type 5 = 1 ∧
    (SubsetAtomMapper.ofList [2, 5] true).get_type 7 = 2 ∧
    (SubsetAtomMapper.ofList [2, 5] false).get_type 7 = -1 := by
  obtain ⟨h1, _, h3, h4⟩ :=
    subsetAtomMapper_flat_spec [2, 5] (by decide) (by decide)
  refine ⟨by simpa using h1, ?_, ?_, ?_, ?_⟩
  · have := h3 true 0 (by norm_num)
    simpa using this
  · have := h3 true 1 (by norm_num)
    simpa using this
  · have := (h4 7 (by norm_num) (by decide)).1
    simpa using this
  · exact (h4 7 (by norm_num) (by decide)).2

/-- C10: both `SubsetAtomMapper` constructors default `include_catchall`
to true, so a subset mapper built without the flag appends the catch-all
category and never returns −1; the −1 sentinel requires passing
`include_catchall = false`. -/
theorem subsetAtomMapper_default_catchall (map : List Int)
    (groups : List (List Int)) (origt t : Nat)
    (ht : unsignedToInt t ∉ map) :
    SubsetAtomMapper.ofList map = SubsetAtomMapper.ofList map true ∧
    SubsetAtomMapper.ofGroups groups = SubsetAtomMapper.ofGroups groups true ∧
    (SubsetAtomMapper.ofList map).get_type origt ≠ -1 ∧
    (SubsetAtomMapper.ofGroups groups).get_type origt ≠ -1 ∧
    (SubsetAtomMapper.ofList map false).get_type t = -1 := by
  refine ⟨rfl, rfl, ?_, ?_, ?_⟩
  · simp only [SubsetAtomMapper.get_type, SubsetAtomMapper.ofList]
    cases hidx : idxOf? map (unsignedToInt origt) with
    | none => simp only [hidx, Option.map_none', if_true]; omega
    | some i => simp only [hidx, Option.map_some']; omega
  · simp only [SubsetAtomMapper.get_type, SubsetAtomMapper.ofGroups]
    cases hidx : lastMem? (unsignedToInt origt) groups with
    | none => simp only [hidx, Option.map_none', if_true]; omega
    | some i => simp only [hidx, Option.map_some']; omega
  · simp only [SubsetAtomMapper.get_type, SubsetAtomMapper.ofList,
      idxOf?_eq_none_iff.mpr ht, Option.map_none', Bool.false_eq_true,
      if_false]

/-- Witness for C10 at a concrete subset, group list and id. -/
theorem subsetAtomMapper_default_catchall_witness :
    SubsetAtomMapper.ofList [2, 5] = SubsetAtomMapper.ofList [2, 5] true ∧
    SubsetAtomMapper.ofGroups [[1], [3]] = SubsetAtomMapper.ofGroups [[1], [3]] true ∧
    (SubsetAtomMapper.ofList [2, 5]).get_type 7 ≠ -1 ∧
    (SubsetAtomMapper.ofGroups [[1], [3]]).get_type 7 ≠ -1 ∧
    (SubsetAtomMapper.ofList [2, 5] false).get_type 7 = -1 := by
  obtain ⟨h1, h2, h3, h4, h5⟩ :=
    subsetAtomMapper_default_catchall [2, 5] [[1], [3]] 7 7 (by decide)
  exact ⟨h1, h2, h3, h4, h5⟩

end libmolgrid
